import Mathlib

/-!
Shallow embedding of the time-slot booking core of the Booking-app repository
(`src/common/utils/date.utils.ts`, `src/modules/time-slot/time-slot.service.ts`,
`src/modules/time-slot/schemas/time-slot.schema.ts`).

Modelling conventions, chosen once for the whole file:
* Absolute instants are modelled as natural numbers counting minutes since the
  Unix epoch (the source uses JavaScript `Date` millisecond timestamps; every
  comparison the claims touch is at minute granularity, so an hour is 60).
* A calendar date (`YYYY-MM-DD` string in the source, stored as a UTC-midnight
  `Date`) is modelled as its day number `now / 1440`; the system runs in a
  single configured timezone, taken to be UTC.
* `DateInput` and `TimeStr` model the boundary input strings: `DateInput.valid d`
  is a well-formed `YYYY-MM-DD` string denoting day `d`, `DateInput.malformed`
  any string `new Date(...)` rejects; `TimeStr.hm h m` is a numeric `H:MM`-shaped
  string (the `HH:mm` regular expression additionally requires `h ≤ 23` and
  `m ≤ 59`, checked by `TimeStr.regexOk`), `TimeStr.malformed` a string on which
  JavaScript `Number` yields `NaN` (so every numeric comparison is false).
* Slot documents keep their stored start time as minutes since midnight; the
  source stores the `HH:mm` string produced by `DateUtil.minutesToTime`, and
  string equality of well-formed `HH:mm` strings coincides with equality of the
  minute values.
* Mongoose strips `undefined` values from a `$set` document, so setting a field
  to an absent optional value leaves the stored field unchanged; `setBooked`
  and the cancellation rollback reproduce that semantics.
* `findOneAndUpdate` updates the first matching document atomically and is
  modelled by `updateFirst`; each service method returns the resulting store
  together with an `Except` mirroring the thrown Nest exceptions; `new Date()`
  reads inside a method are modelled by an injected `now` parameter.
* `TimeSlotSchema` declares no index beyond the automatic `_id` one, so
  `insertMany` in `generateDaySlots` is modelled as a plain append with fresh
  surrogate ids.
-/

deriving instance DecidableEq for Except

namespace Booking

/-- Left pad a two-digit component, as in `padStart(2, '0')`. -/
def pad2 (n : Nat) : String := if n < 10 then "0" ++ toString n else toString n

/-- Mirrors `DateUtil.minutesToTime`: minutes since midnight to an `HH:mm` string. -/
def minutesToTime (m : Nat) : String := pad2 (m / 60) ++ ":" ++ pad2 (m % 60)

/-- Characters before the first `:` (the `hours` component of `split(':')`). -/
def untilColon : List Char → List Char
  | [] => []
  | c :: cs => if c = ':' then [] else c :: untilColon cs

/-- Characters after the first `:` (the remainder handed to the `minutes`
component of the destructured `split(':')`). -/
def afterColon : List Char → List Char
  | [] => []
  | c :: cs => if c = ':' then cs else afterColon cs

/-- `Number` applied to a string of decimal digits. -/
def digitsVal (cs : List Char) : Nat := cs.foldl (fun a c => a * 10 + (c.toNat - 48)) 0

/-- Mirrors `DateUtil.timeToMinutes`: `timeString.split(':')`, destructured into
the first two components, each converted by `Number`.  Modelled on strings made
of digits and colons, the only ones the service feeds it (anything else would
yield `NaN` in the source and is screened out by validation beforehand). -/
def timeToMinutes (s : String) : Nat :=
  digitsVal (untilColon s.data) * 60 + digitsVal (untilColon (afterColon s.data))

/-- Iteration bound for the grid loop: when the duration is at least one, the
loop of `DateUtil.generateTimeSlots` runs at most `e - m` times. -/
def slotLoopGo (e d : Nat) : Nat → Nat → List Nat
  | 0, _ => []
  | fuel + 1, m => if m < e ∧ 0 < d then m :: slotLoopGo e d fuel (m + d) else []

/-- Loop of `DateUtil.generateTimeSlots`: starting at `m`, emit `m` and step by
`d` while strictly below `e`.  With a positive duration the fuel `e - m` never
runs out before the loop guard fails, so this is exactly the source loop; the
source loop does not terminate when the duration is zero or negative, and the
fuel then truncates the divergence. -/
def slotLoop (e d m : Nat) : List Nat := slotLoopGo e d (e - m) m

/-- Mirrors `DateUtil.generateTimeSlots(startTime, endTime, slotDuration)`. -/
def generateTimeSlots (startTime endTime : String) (slotDuration : Nat) : List String :=
  (slotLoop (timeToMinutes endTime) slotDuration (timeToMinutes startTime)).map minutesToTime

/-- Mirrors `DateUtil.meetsAdvanceNotice(bookingDateTime, minimumHours)` with the
internal `new Date()` read injected as `now`: true iff the booking instant is at
least `minimumHours` hours after `now`. -/
def meetsAdvanceNotice (bookingDateTime : Nat) (now : Nat) (minimumHours : Nat) : Bool :=
  decide (now + minimumHours * 60 ≤ bookingDateTime)

/-- Mirrors `DateUtil.getMinimumBookingTime`. -/
def getMinimumBookingTime (now : Nat) (advanceHours : Nat) : Nat := now + advanceHours * 60

/-- Mirrors `DateUtil.formatTime`: the `HH:mm` wall-clock part of an instant. -/
def formatTime (t : Nat) : String := minutesToTime (t % 1440)

/-- A `date` input string at the service boundary. -/
inductive DateInput where
  | valid (day : Nat)
  | malformed
deriving DecidableEq, Repr

/-- A `time` input string at the service boundary. -/
inductive TimeStr where
  | hm (h m : Nat)
  | malformed
deriving DecidableEq, Repr

/-- Numeric value of a time string, `none` standing for JavaScript `NaN`. -/
def TimeStr.toMinutes? : TimeStr → Option Nat
  | .hm h m => some (60 * h + m)
  | .malformed => none

/-- The `HH:mm` regular expression of `DateUtil.parseDateTime`. -/
def TimeStr.regexOk : TimeStr → Bool
  | .hm h m => h ≤ 23 && m ≤ 59
  | .malformed => false

/-- Mirrors `DateUtil.isWithinWorkingHours`; a `NaN` time compares false. -/
def isWithinWorkingHours (t : TimeStr) (startM endM : Nat) : Bool :=
  match t.toMinutes? with
  | some tm => startM ≤ tm && tm < endM
  | none => false

/-- Mirrors `DateUtil.isPastDateString`: compare midnight-truncated dates. -/
def isPastDateString (d : Nat) (now : Nat) : Bool := d < now / 1440

/-- Day of week of a day number; day 0 (1970-01-01) was a Thursday and
`getDay()` numbers Sunday as 0. -/
def dayOfWeek (d : Nat) : Nat := (d + 4) % 7

/-- Mirrors `DateUtil.isWeekendString`. -/
def isWeekend (d : Nat) : Bool := dayOfWeek d == 0 || dayOfWeek d == 6

/-- The configuration the service constructor caches (working hours as minutes
since midnight, slot duration in minutes, advance notice in hours). -/
structure BookingConfig where
  startTime : Nat
  endTime : Nat
  slotDuration : Nat
  advanceHours : Nat
  allowWeekends : Bool
deriving DecidableEq, Repr

/-- The configuration defaults of `TimeSlotService` (09:00-17:00, 60-minute
slots, 3 hours advance notice, weekends disallowed). -/
def defaultConfig : BookingConfig :=
  { startTime := 540, endTime := 1020, slotDuration := 60, advanceHours := 3,
    allowWeekends := false }

/-- Mirrors `DateUtil.validateBookingDateTime`, returning the accumulated error
list (`isValid` is its emptiness).  A malformed date makes `parseDate` throw
inside the `try`, so only that message is collected; otherwise the four rules
are checked in source order, and a time string rejected by the `HH:mm` regular
expression makes `meetsAdvanceNoticeString` throw as the last check. -/
def validateBookingDateTime (date : DateInput) (time : TimeStr) (cfg : BookingConfig)
    (now : Nat) : List String :=
  match date with
  | .malformed => ["Invalid date format. Use YYYY-MM-DD"]
  | .valid d =>
    (if isPastDateString d now then ["Cannot book appointments for past dates"] else []) ++
    (if !cfg.allowWeekends && isWeekend d then ["Weekend bookings are not allowed"] else []) ++
    (if !isWithinWorkingHours time cfg.startTime cfg.endTime then
      ["Time must be between working hours"] else []) ++
    (match time with
     | .hm h m =>
       if TimeStr.regexOk (.hm h m) then
         if !meetsAdvanceNotice (d * 1440 + (60 * h + m)) now cfg.advanceHours then
           ["Bookings must be made in advance"] else []
       else ["Invalid time format. Use HH:mm (24-hour format)"]
     | .malformed => ["Invalid time format. Use HH:mm (24-hour format)"])

/-- Mirrors `DateUtil.getAvailableTimeSlotsForDate`: empty for past dates, the
full grid for future dates, and for today the grid filtered by keeping exactly
the start times at or after the wall-clock `HH:mm` of `now + advanceHours`.
A malformed date string makes `isPastDateString` throw. -/
def getAvailableTimeSlotsForDate (date : DateInput) (startTime endTime : String)
    (slotDuration : Nat) (advanceHours : Nat) (now : Nat) : Except String (List String) :=
  match date with
  | .malformed => .error "Invalid date format. Use YYYY-MM-DD"
  | .valid d =>
    if isPastDateString d now then .ok []
    else
      let allSlots := generateTimeSlots startTime endTime slotDuration
      if d ≠ now / 1440 then .ok allSlots
      else
        let minimumTimeString := formatTime (getMinimumBookingTime now advanceHours)
        .ok (allSlots.filter fun slot => timeToMinutes minimumTimeString ≤ timeToMinutes slot)

/-- The three exception kinds the service throws (`NotFoundException`,
`ConflictException`, `BadRequestException`), distinguishable by the caller. -/
inductive Err where
  | notFound (msg : String)
  | conflict (msg : String)
  | badRequest (msg : String)
deriving DecidableEq, Repr

/-- The `SlotStatus` enum of `time-slot.schema.ts`. -/
inductive SlotStatus where
  | available
  | booked
  | blocked
deriving DecidableEq, Repr

/-- Free-form reservation metadata (`Record<string, any>` in the source). -/
abbrev Metadata := List (String × String)

/-- A `TimeSlot` document.  `date` is the day number of the stored UTC-midnight
date, `startTime`/`endTime` the minute values of the stored `HH:mm` strings.
`bookedBy`, `bookedAt`, `metadata` and `freedAt` are fields the service writes
through `$set`/`$unset`; an absent field is `none`. -/
structure Slot where
  id : Nat
  date : Nat
  startTime : Nat
  endTime : Nat
  duration : Nat
  status : SlotStatus
  bookedBy : Option String := none
  bookedAt : Option Nat := none
  metadata : Option Metadata := none
  freedAt : Option Nat := none
deriving DecidableEq, Repr

/-- The slot collection. -/
abbrev Store := List Slot

/-- The instant a slot starts, as recomputed by the service via
`DateUtil.parseDateTime(DateUtil.formatDate(slot.date), slot.startTime)`. -/
def slotDateTime (s : Slot) : Nat := s.date * 1440 + s.startTime

/-- The `{ _id: slotId }` filter. -/
def byId (slotId : Nat) (s : Slot) : Bool := s.id == slotId

/-- The `{ _id: slotId, status: AVAILABLE }` filter of `bookSlot`. -/
def bookFilter (slotId : Nat) (s : Slot) : Bool :=
  s.id == slotId && s.status == SlotStatus.available

/-- The `{ _id: slotId, status: BOOKED, [bookedBy: userId] }` filter shared by
`cancelSlot` and `freeSlot`: the `bookedBy` clause is added only when a user id
is supplied. -/
def releaseFilter (slotId : Nat) (userId : Option String) (s : Slot) : Bool :=
  s.id == slotId && s.status == SlotStatus.booked &&
    (match userId with
     | some u => s.bookedBy == some u
     | none => true)

/-- `findOneAndUpdate`: atomically replace the first document matching `p` by
its image under `f`, returning the updated document (`new: true`) and the
resulting collection. -/
def updateFirst (p : Slot → Bool) (f : Slot → Slot) : Store → Option Slot × Store
  | [] => (none, [])
  | s :: rest =>
    if p s then (some (f s), f s :: rest)
    else
      let r := updateFirst p f rest
      (r.1, s :: r.2)

/-- The `$set` document of `bookSlot`: status BOOKED, holder, booked-at stamp
and metadata (defaulted to `{}`) in one update.  A missing `userId` is an
`undefined` stripped from the `$set`, leaving the stored field unchanged. -/
def setBooked (userId : Option String) (md : Option Metadata) (now : Nat) (s : Slot) : Slot :=
  { s with status := SlotStatus.booked,
           bookedBy := match userId with | some u => some u | none => s.bookedBy,
           bookedAt := some now,
           metadata := some (md.getD []) }

/-- The `$set`/`$unset` document shared by `cancelSlot` and the `bookSlot`
rollback: back to AVAILABLE with holder, stamp and metadata removed. -/
def clearBooking (s : Slot) : Slot :=
  { s with status := SlotStatus.available, bookedBy := none, bookedAt := none,
           metadata := none }

/-- The `$set`/`$unset` document of `freeSlot`: additionally stamps `freedAt`. -/
def setFreed (now : Nat) (s : Slot) : Slot :=
  { s with status := SlotStatus.available, bookedBy := none, bookedAt := none,
           metadata := none, freedAt := some now }

/-- Mirrors `TimeSlotService.bookSlot`: one conditional update from AVAILABLE to
BOOKED; on a miss, a not-found or conflict error depending on whether the id
exists; after a hit, the advance-notice double check, rolled back through a
second update by id when it fails. -/
def bookSlot (store : Store) (slotId : Nat) (userId : Option String)
    (md : Option Metadata) (advanceHours : Nat) (now : Nat) : Store × Except Err Slot :=
  match updateFirst (bookFilter slotId) (setBooked userId md now) store with
  | (some updated, store1) =>
    if meetsAdvanceNotice (slotDateTime updated) now advanceHours then
      (store1, .ok updated)
    else
      ((updateFirst (byId slotId) clearBooking store1).2,
       .error (.badRequest "Bookings must be made in advance"))
  | (none, _) =>
    match store.find? (byId slotId) with
    | none => (store, .error (.notFound "Time slot not found"))
    | some _ => (store, .error (.conflict "Time slot is no longer available"))

/-- Mirrors `TimeSlotService.cancelSlot`: conditional update from BOOKED to
AVAILABLE (optionally gated on the holder), then the one-hour cancellation
window check; on failure the cancellation is rolled back by a second update
that restores only the status and (when supplied) the holder — not the
booked-at stamp or the metadata. -/
def cancelSlot (store : Store) (slotId : Nat) (userId : Option String)
    (now : Nat) : Store × Except Err Slot :=
  match updateFirst (releaseFilter slotId userId) clearBooking store with
  | (some updated, store1) =>
    if meetsAdvanceNotice (slotDateTime updated) now 1 then
      (store1, .ok updated)
    else
      ((updateFirst (byId slotId)
          (fun s => { s with status := SlotStatus.booked,
                             bookedBy := match userId with
                                         | some u => some u
                                         | none => s.bookedBy }) store1).2,
       .error (.badRequest "Cannot cancel booking less than 1 hour before appointment"))
  | (none, _) =>
    (store, .error (.notFound "Slot not found or cannot be cancelled"))

/-- Mirrors `TimeSlotService.freeSlot`: conditional update from BOOKED to
AVAILABLE stamping `freedAt`; on a miss, not-found when the id is unknown,
a no-op success when the slot is already AVAILABLE, a conflict otherwise. -/
def freeSlot (store : Store) (slotId : Nat) (userId : Option String)
    (now : Nat) : Store × Except Err Slot :=
  match updateFirst (releaseFilter slotId userId) (setFreed now) store with
  | (some updated, store1) => (store1, .ok updated)
  | (none, _) =>
    match store.find? (byId slotId) with
    | none => (store, .error (.notFound "Time slot not found"))
    | some s =>
      if s.status == SlotStatus.available then (store, .ok s)
      else (store, .error (.conflict "Slot is not booked or you do not have permission to free it"))

/-- Mirrors the lookup part of `TimeSlotService.getSlotById`. -/
def getSlotById (store : Store) (slotId : Nat) : Except Err Slot :=
  match store.find? (byId slotId) with
  | none => .error (.notFound "Time slot not found")
  | some s => .ok s

/-- The coordinate filter of `findAvailableSlot`: the slot document whose stored
date matches the requested day and whose start-time string matches `time`. -/
def coordFilter (d tm : Nat) (s : Slot) : Bool :=
  s.date == d && s.startTime == tm && s.status == SlotStatus.available

/-- Mirrors `TimeSlotService.findAvailableSlot`: validate the coordinates, then
a single lookup for an AVAILABLE slot at them.  When validation passes the date
is necessarily well formed and the time numeric, so the catch-all branch of the
match is unreachable. -/
def findAvailableSlot (store : Store) (date : DateInput) (time : TimeStr)
    (cfg : BookingConfig) (now : Nat) : Except Err (Option Slot) :=
  if (validateBookingDateTime date time cfg now).isEmpty then
    match date, time.toMinutes? with
    | .valid d, some tm => .ok (store.find? (coordFilter d tm))
    | _, _ => .ok none
  else
    .error (.badRequest "validation failed")

/-- Mirrors `TimeSlotService.isSlotAvailable`: validate, then delegate to
`findAvailableSlot`, with a catch-all returning `false` on any thrown error. -/
def isSlotAvailable (store : Store) (date : DateInput) (time : TimeStr)
    (cfg : BookingConfig) (now : Nat) : Bool :=
  if (validateBookingDateTime date time cfg now).isEmpty then
    match findAvailableSlot store date time cfg now with
    | .ok (some _) => true
    | .ok none => false
    | .error _ => false
  else false

/-- The `Promise.all([freeSlot, bookSlot])` block of `rescheduleSlot`: both
conditional updates execute (they touch different documents) and the first
rejection, if any, is propagated.  The concurrent pair is serialised as the
release followed by the reserve. -/
def reschedulePhase2 (store : Store) (currentSlotId newSlotId : Nat)
    (userId : Option String) (md : Option Metadata) (advanceHours : Nat)
    (now : Nat) : Store × Except Err (Slot × Slot) :=
  let rf := freeSlot store currentSlotId userId now
  let rb := bookSlot rf.1 newSlotId userId md advanceHours now
  match rf.2, rb.2 with
  | .ok freed, .ok bookedSlot => (rb.1, .ok (freed, bookedSlot))
  | .error e, _ => (rb.1, .error e)
  | _, .error e => (rb.1, .error e)

/-- Mirrors `TimeSlotService.rescheduleSlot`: look up the new-coordinate slot
and fail fast when unavailable, read the current slot, check ownership when a
user id is supplied, then release the old and reserve the new slot carrying
the current slot's metadata across. -/
def rescheduleSlot (store : Store) (currentSlotId : Nat) (newDate : DateInput)
    (newTime : TimeStr) (userId : Option String) (cfg : BookingConfig)
    (now : Nat) : Store × Except Err (Slot × Slot) :=
  match findAvailableSlot store newDate newTime cfg now with
  | .error e => (store, .error e)
  | .ok none => (store, .error (.badRequest "New time slot is not available"))
  | .ok (some newSlot) =>
    match store.find? (byId currentSlotId) with
    | none => (store, .error (.notFound "Time slot not found"))
    | some cur =>
      match userId with
      | some u =>
        if cur.bookedBy = some u then
          reschedulePhase2 store currentSlotId newSlot.id userId cur.metadata
            cfg.advanceHours now
        else (store, .error (.badRequest "You can only reschedule your own bookings"))
      | none =>
        reschedulePhase2 store currentSlotId newSlot.id userId cur.metadata
          cfg.advanceHours now

/-- Fresh surrogate id for an inserted document. -/
def nextId (store : Store) : Nat := store.foldr (fun s acc => max (s.id + 1) acc) 0

/-- Mirrors `TimeSlotService.generateDaySlots`: build the grid for the day and
`insertMany` it.  The schema declares no unique index on
`(date, startTime, duration)`, so the bulk insert cannot raise a duplicate-key
error on those coordinates and is a plain append of fresh documents. -/
def generateDaySlots (store : Store) (d : Nat) (duration : Nat)
    (cfg : BookingConfig) : Store :=
  let times := slotLoop cfg.endTime duration cfg.startTime
  let base := nextId store
  store ++ times.enum.map (fun it =>
    { id := base + it.1, date := d, startTime := it.2, endTime := it.2 + duration,
      duration := duration, status := SlotStatus.available })

/-- Mirrors `TimeSlotService.getOrCreateDaySlots`: read the day's slots and
generate them only when none exist. -/
def getOrCreateDaySlots (store : Store) (d : Nat) (duration : Nat)
    (cfg : BookingConfig) : Store :=
  if store.any (fun s => s.date == d && s.duration == duration) then store
  else generateDaySlots store d duration cfg

/-- One slot-mutating operation of the allocator, as invoked by the booking
workflow: reserve and cancel carry the requester id the workflow always has. -/
inductive Op where
  | generate (d duration : Nat)
  | book (slotId : Nat) (u : String) (md : Metadata) (now : Nat)
  | cancel (slotId : Nat) (u : String) (now : Nat)
  | free (slotId : Nat) (u : Option String) (now : Nat)
  | reschedule (slotId : Nat) (newDate : DateInput) (newTime : TimeStr)
      (u : String) (now : Nat)
deriving DecidableEq, Repr

/-- The store reached after one operation. -/
def runOp (cfg : BookingConfig) (store : Store) : Op → Store
  | .generate d dur => getOrCreateDaySlots store d dur cfg
  | .book slotId u md now => (bookSlot store slotId (some u) (some md) cfg.advanceHours now).1
  | .cancel slotId u now => (cancelSlot store slotId (some u) now).1
  | .free slotId u now => (freeSlot store slotId u now).1
  | .reschedule slotId nd nt u now => (rescheduleSlot store slotId nd nt (some u) cfg now).1

/-- The store reached from an empty collection by a sequence of operations. -/
def runOps (cfg : BookingConfig) (ops : List Op) : Store := ops.foldl (runOp cfg) []

/-- The schema invariant under scrutiny: a slot is BOOKED exactly when its
holder is present, and metadata is only ever present on a BOOKED slot. -/
def HolderInv (s : Slot) : Prop :=
  (s.status = SlotStatus.booked ↔ s.bookedBy.isSome = true) ∧
  (s.metadata.isSome = true → s.status = SlotStatus.booked)

instance (s : Slot) : Decidable (HolderInv s) := by unfold HolderInv; infer_instance

/-- Whether a slot document sits at the requested boundary coordinates. -/
def slotAt (date : DateInput) (time : TimeStr) (s : Slot) : Bool :=
  match date, time.toMinutes? with
  | .valid d, some tm => s.date == d && s.startTime == tm
  | _, _ => false

/-! Generic facts about `updateFirst` and `List.find?` used throughout. -/

theorem mem_updateFirst {p : Slot → Bool} {f : Slot → Slot} {l : Store} {x : Slot}
    (hx : x ∈ (updateFirst p f l).2) :
    x ∈ l ∨ ∃ y, y ∈ l ∧ p y = true ∧ x = f y := by
  induction l with
  | nil => simp [updateFirst] at hx
  | cons s rest ih =>
    by_cases hp : p s = true
    · simp [updateFirst, hp] at hx
      rcases hx with h | h
      · exact Or.inr ⟨s, by simp, hp, h⟩
      · exact Or.inl (List.mem_cons_of_mem _ h)
    · simp [updateFirst, hp] at hx
      rcases hx with h | h
      · exact Or.inl (by simp [h])
      · rcases ih h with h1 | ⟨y, hy, hpy, hxy⟩
        · exact Or.inl (List.mem_cons_of_mem _ h1)
        · exact Or.inr ⟨y, List.mem_cons_of_mem _ hy, hpy, hxy⟩

theorem updateFirst_of_find?_eq_none {p : Slot → Bool} {f : Slot → Slot} {l : Store}
    (h : l.find? p = none) : updateFirst p f l = (none, l) := by
  induction l with
  | nil => rfl
  | cons s rest ih =>
    rw [List.find?_eq_none] at h
    have hs : ¬ p s = true := h s (by simp)
    have hrest : rest.find? p = none :=
      List.find?_eq_none.mpr (fun x hx => h x (List.mem_cons_of_mem _ hx))
    simp [updateFirst, hs, ih hrest]

theorem updateFirst_find_spec {p : Slot → Bool} {f : Slot → Slot} {l : Store} {i : Nat}
    {s : Slot}
    (hp : ∀ t, p t = true → t.id = i)
    (hfid : ∀ t, (f t).id = t.id)
    (hfind : l.find? (byId i) = some s)
    (hps : p s = true) :
    (updateFirst p f l).1 = some (f s) ∧
      ∀ j, (updateFirst p f l).2.find? (byId j) =
        if j = i then some (f s) else l.find? (byId j) := by
  induction l with
  | nil => simp at hfind
  | cons x rest ih =>
    by_cases hx : x.id = i
    · have hbx : byId i x = true := by simp [byId, hx]
      rw [List.find?_cons_of_pos _ hbx] at hfind
      cases hfind
      refine ⟨by simp [updateFirst, hps], fun j => ?_⟩
      by_cases hj : j = i
      · subst hj
        have hb : byId j (f s) = true := by simp [byId, hfid, hx]
        simp [updateFirst, hps, List.find?_cons_of_pos _ hb]
      · have h1 : ¬ byId j (f s) = true := by simp [byId, hfid, hx]; omega
        have h2 : ¬ byId j s = true := by simp [byId, hx]; omega
        simp [updateFirst, hps, List.find?_cons_of_neg _ h1, List.find?_cons_of_neg _ h2, hj]
    · have hbx : ¬ byId i x = true := by simp [byId, hx]
      rw [List.find?_cons_of_neg _ hbx] at hfind
      have hpx : ¬ p x = true := fun hc => hx (hp x hc)
      obtain ⟨ih1, ih2⟩ := ih hfind
      refine ⟨by simp [updateFirst, hpx, ih1], fun j => ?_⟩
      by_cases hxj : x.id = j
      · have hji : ¬ j = i := fun hji => hx (hxj.symm ▸ hji)
        have hb : byId j x = true := by simp [byId, hxj]
        simp [updateFirst, hpx, List.find?_cons_of_pos _ hb, hji]
      · have hb : ¬ byId j x = true := by simp [byId, hxj]
        simp [updateFirst, hpx, List.find?_cons_of_neg _ hb, ih2 j]

theorem updateFirst_restore {p q : Slot → Bool} {f g : Slot → Slot} {l : Store} {i : Nat}
    {s : Slot}
    (hp : ∀ t, p t = true → t.id = i)
    (hq : ∀ t, q t = true → t.id = i)
    (hfind : l.find? (byId i) = some s)
    (hps : p s = true)
    (hqf : q (f s) = true)
    (hgf : g (f s) = s) :
    updateFirst q g (updateFirst p f l).2 = (some s, l) := by
  induction l with
  | nil => simp at hfind
  | cons x rest ih =>
    by_cases hx : x.id = i
    · have hbx : byId i x = true := by simp [byId, hx]
      rw [List.find?_cons_of_pos _ hbx] at hfind
      cases hfind
      simp [updateFirst, hps, hqf, hgf]
    · have hbx : ¬ byId i x = true := by simp [byId, hx]
      rw [List.find?_cons_of_neg _ hbx] at hfind
      have hpx : ¬ p x = true := fun hc => hx (hp x hc)
      have hqx : ¬ q x = true := fun hc => hx (hq x hc)
      simp [updateFirst, hpx, hqx, ih hfind]

theorem find?_eq_of_unique_id {p : Slot → Bool} {l : Store} {i : Nat} {s : Slot}
    (hids : (l.map Slot.id).Nodup)
    (hp : ∀ t, p t = true → t.id = i)
    (hfind : l.find? (byId i) = some s) :
    l.find? p = if p s then some s else none := by
  induction l with
  | nil => simp at hfind
  | cons x rest ih =>
    rw [List.map_cons, List.nodup_cons] at hids
    obtain ⟨hxn, hrest⟩ := hids
    by_cases hx : x.id = i
    · have hbx : byId i x = true := by simp [byId, hx]
      rw [List.find?_cons_of_pos _ hbx] at hfind
      cases hfind
      by_cases hpx : p s = true
      · simp [List.find?_cons_of_pos _ hpx, hpx]
      · have hnone : rest.find? p = none := by
          refine List.find?_eq_none.mpr (fun t ht hc => ?_)
          exact hxn (List.mem_map.mpr ⟨t, ht, by rw [hp t hc, hx]⟩)
        simp [List.find?_cons_of_neg _ hpx, hpx, hnone]
    · have hbx : ¬ byId i x = true := by simp [byId, hx]
      rw [List.find?_cons_of_neg _ hbx] at hfind
      have hpx : ¬ p x = true := fun hc => hx (hp x hc)
      rw [List.find?_cons_of_neg _ hpx]
      exact ih hrest hfind

theorem find?_byId_of_mem {l : Store} (hids : (l.map Slot.id).Nodup) {s : Slot}
    (hs : s ∈ l) : l.find? (byId s.id) = some s := by
  induction l with
  | nil => simp at hs
  | cons x rest ih =>
    rw [List.map_cons, List.nodup_cons] at hids
    obtain ⟨hxn, hrest⟩ := hids
    rcases List.mem_cons.mp hs with h | h
    · subst h
      exact List.find?_cons_of_pos _ (by simp [byId])
    · have hbx : ¬ byId s.id x = true := by
        simp [byId]
        exact fun hc => hxn (List.mem_map.mpr ⟨s, h, hc.symm⟩)
      rw [List.find?_cons_of_neg _ hbx]
      exact ih hrest h

/-! Field bookkeeping for the update documents. -/

theorem setBooked_id (userId : Option String) (md : Option Metadata) (now : Nat)
    (s : Slot) : (setBooked userId md now s).id = s.id := rfl

theorem clearBooking_id (s : Slot) : (clearBooking s).id = s.id := rfl

theorem setFreed_id (now : Nat) (s : Slot) : (setFreed now s).id = s.id := rfl

theorem slotDateTime_setBooked (userId : Option String) (md : Option Metadata)
    (now : Nat) (s : Slot) : slotDateTime (setBooked userId md now s) = slotDateTime s := rfl

theorem slotDateTime_clearBooking (s : Slot) :
    slotDateTime (clearBooking s) = slotDateTime s := rfl

/-! Preservation of the holder invariant by every allocator operation that is
invoked with a requester id. -/

theorem holderInv_setBooked_some (u : String) (md : Option Metadata) (now : Nat)
    (s : Slot) : HolderInv (setBooked (some u) md now s) := by
  refine ⟨by simp [setBooked], fun _ => rfl⟩

theorem holderInv_clearBooking (s : Slot) : HolderInv (clearBooking s) := by
  refine ⟨by simp [clearBooking], by simp [clearBooking]⟩

theorem holderInv_setFreed (now : Nat) (s : Slot) : HolderInv (setFreed now s) := by
  refine ⟨by simp [setFreed], by simp [setFreed]⟩

theorem holderInv_updateFirst {p : Slot → Bool} {f : Slot → Slot} {l : Store}
    (hf : ∀ y, HolderInv (f y)) (hl : ∀ t ∈ l, HolderInv t) :
    ∀ x ∈ (updateFirst p f l).2, HolderInv x := by
  intro x hx
  rcases mem_updateFirst hx with h | ⟨y, _, _, rfl⟩
  · exact hl x h
  · exact hf y

theorem holderInv_bookSlot {store : Store} {slotId : Nat} {u : String}
    {md : Option Metadata} {adv now : Nat} (hl : ∀ t ∈ store, HolderInv t) :
    ∀ x ∈ (bookSlot store slotId (some u) md adv now).1, HolderInv x := by
  have hupd : ∀ x ∈ (updateFirst (bookFilter slotId) (setBooked (some u) md now) store).2,
      HolderInv x :=
    holderInv_updateFirst (fun y => holderInv_setBooked_some u md now y) hl
  unfold bookSlot
  rcases hu : updateFirst (bookFilter slotId) (setBooked (some u) md now) store with ⟨o, store1⟩
  rw [hu] at hupd
  cases o with
  | some updated =>
    by_cases hmeet : meetsAdvanceNotice (slotDateTime updated) now adv = true
    · simpa [hmeet] using hupd
    · simp only [Bool.not_eq_true] at hmeet
      simp only [hmeet]
      exact holderInv_updateFirst (fun y => holderInv_clearBooking y) hupd
  | none =>
    rcases hf : store.find? (byId slotId) with _ | s
    · simpa [hf] using hl
    · simpa [hf] using hl

theorem holderInv_cancelSlot {store : Store} {slotId : Nat} {u : String} {now : Nat}
    (hl : ∀ t ∈ store, HolderInv t) :
    ∀ x ∈ (cancelSlot store slotId (some u) now).1, HolderInv x := by
  have hupd : ∀ x ∈ (updateFirst (releaseFilter slotId (some u)) clearBooking store).2,
      HolderInv x :=
    holderInv_updateFirst (fun y => holderInv_clearBooking y) hl
  unfold cancelSlot
  rcases hu : updateFirst (releaseFilter slotId (some u)) clearBooking store with ⟨o, store1⟩
  rw [hu] at hupd
  cases o with
  | some updated =>
    by_cases hmeet : meetsAdvanceNotice (slotDateTime updated) now 1 = true
    · simpa [hmeet] using hupd
    · simp only [Bool.not_eq_true] at hmeet
      simp only [hmeet]
      refine holderInv_updateFirst (fun y => ?_) hupd
      exact ⟨by simp, fun _ => rfl⟩
  | none => simpa using hl

theorem holderInv_freeSlot {store : Store} {slotId : Nat} {uopt : Option String}
    {now : Nat} (hl : ∀ t ∈ store, HolderInv t) :
    ∀ x ∈ (freeSlot store slotId uopt now).1, HolderInv x := by
  have hupd : ∀ x ∈ (updateFirst (releaseFilter slotId uopt) (setFreed now) store).2,
      HolderInv x :=
    holderInv_updateFirst (fun y => holderInv_setFreed now y) hl
  unfold freeSlot
  rcases hu : updateFirst (releaseFilter slotId uopt) (setFreed now) store with ⟨o, store1⟩
  rw [hu] at hupd
  cases o with
  | some updated => simpa using hupd
  | none =>
    rcases hf : store.find? (byId slotId) with _ | s
    · simpa [hf] using hl
    · by_cases hst : (s.status == SlotStatus.available) = true
      · simpa [hf, hst] using hl
      · simp only [Bool.not_eq_true] at hst
        simpa [hf, hst] using hl

theorem holderInv_generateDaySlots {store : Store} {d dur : Nat} {cfg : BookingConfig}
    (hl : ∀ t ∈ store, HolderInv t) :
    ∀ x ∈ generateDaySlots store d dur cfg, HolderInv x := by
  intro x hx
  unfold generateDaySlots at hx
  rcases List.mem_append.mp hx with h | h
  · exact hl x h
  · rcases List.mem_map.mp h with ⟨it, _, rfl⟩
    exact ⟨by simp, by simp⟩

theorem holderInv_getOrCreateDaySlots {store : Store} {d dur : Nat} {cfg : BookingConfig}
    (hl : ∀ t ∈ store, HolderInv t) :
    ∀ x ∈ getOrCreateDaySlots store d dur cfg, HolderInv x := by
  unfold getOrCreateDaySlots
  by_cases hc : store.any (fun s => s.date == d && s.duration == dur) = true
  · simpa [hc] using hl
  · simp only [Bool.not_eq_true] at hc
    simpa [hc] using holderInv_generateDaySlots hl

theorem holderInv_reschedulePhase2 {store : Store} {curId newId : Nat} {u : String}
    {md : Option Metadata} {adv now : Nat} (hl : ∀ t ∈ store, HolderInv t) :
    ∀ x ∈ (reschedulePhase2 store curId newId (some u) md adv now).1, HolderInv x := by
  have hfree : ∀ x ∈ (freeSlot store curId (some u) now).1, HolderInv x := holderInv_freeSlot hl
  have hbook : ∀ x ∈ (bookSlot (freeSlot store curId (some u) now).1 newId (some u) md adv now).1,
      HolderInv x := holderInv_bookSlot hfree
  unfold reschedulePhase2
  dsimp only
  split <;> exact hbook

theorem holderInv_rescheduleSlot {store : Store} {curId : Nat} {nd : DateInput}
    {nt : TimeStr} {u : String} {cfg : BookingConfig} {now : Nat}
    (hl : ∀ t ∈ store, HolderInv t) :
    ∀ x ∈ (rescheduleSlot store curId nd nt (some u) cfg now).1, HolderInv x := by
  unfold rescheduleSlot
  rcases hfa : findAvailableSlot store nd nt cfg now with e | o
  · simpa using hl
  · rcases o with _ | ns
    · simpa using hl
    · rcases hf : store.find? (byId curId) with _ | cur
      · simpa using hl
      · by_cases hb : cur.bookedBy = some u
        · simpa [hb] using holderInv_reschedulePhase2 hl
        · simpa [hb] using hl

theorem holderInv_runOp {cfg : BookingConfig} {store : Store} (op : Op)
    (hl : ∀ t ∈ store, HolderInv t) : ∀ x ∈ runOp cfg store op, HolderInv x := by
  cases op with
  | generate d dur => exact holderInv_getOrCreateDaySlots hl
  | book slotId u md now => exact holderInv_bookSlot hl
  | cancel slotId u now => exact holderInv_cancelSlot hl
  | free slotId uopt now => exact holderInv_freeSlot hl
  | reschedule slotId nd nt u now => exact holderInv_rescheduleSlot hl

theorem holderInv_foldl {cfg : BookingConfig} (ops : List Op) :
    ∀ store : Store, (∀ t ∈ store, HolderInv t) →
      ∀ x ∈ ops.foldl (runOp cfg) store, HolderInv x := by
  induction ops with
  | nil => intro store hl; simpa using hl
  | cons op rest ih =>
    intro store hl
    exact ih (runOp cfg store op) (fun t ht => holderInv_runOp op hl t ht)

/-! Characterisation of the grid loop. -/

theorem slotLoopGo_mem {d : Nat} (hd : 0 < d) (e : Nat) :
    ∀ fuel m x, e - m ≤ fuel →
      (x ∈ slotLoopGo e d fuel m ↔ ∃ i, x = m + i * d ∧ x < e) := by
  intro fuel
  induction fuel with
  | zero =>
    intro m x hk
    simp only [slotLoopGo, List.not_mem_nil, false_iff]
    rintro ⟨i, rfl, hlt⟩
    have := Nat.le_add_right m (i * d)
    omega
  | succ fuel ih =>
    intro m x hk
    simp only [slotLoopGo]
    by_cases hme : m < e
    · have hcond : m < e ∧ 0 < d := ⟨hme, hd⟩
      simp only [if_pos hcond, List.mem_cons]
      rw [ih (m + d) x (by omega)]
      constructor
      · rintro (rfl | ⟨i, rfl, hlt⟩)
        · exact ⟨0, by simp, hme⟩
        · exact ⟨i + 1, by ring, hlt⟩
      · rintro ⟨i, rfl, hlt⟩
        cases i with
        | zero => exact Or.inl (by simp)
        | succ i => exact Or.inr ⟨i, by ring, hlt⟩
    · have hcond : ¬ (m < e ∧ 0 < d) := fun hc => hme hc.1
      simp only [if_neg hcond, List.not_mem_nil, false_iff]
      rintro ⟨i, rfl, hlt⟩
      have := Nat.le_add_right m (i * d)
      omega

theorem slotLoopGo_pairwise {d : Nat} (hd : 0 < d) (e : Nat) :
    ∀ fuel m, e - m ≤ fuel → (slotLoopGo e d fuel m).Pairwise (· < ·) := by
  intro fuel
  induction fuel with
  | zero => intro m hk; simp [slotLoopGo]
  | succ fuel ih =>
    intro m hk
    simp only [slotLoopGo]
    by_cases hme : m < e
    · have hcond : m < e ∧ 0 < d := ⟨hme, hd⟩
      simp only [if_pos hcond]
      refine List.Pairwise.cons ?_ (ih (m + d) (by omega))
      intro x hx
      obtain ⟨i, rfl, _⟩ := (slotLoopGo_mem hd e fuel (m + d) x (by omega)).mp hx
      have := Nat.le_add_right (m + d) (i * d)
      omega
    · have hcond : ¬ (m < e ∧ 0 < d) := fun hc => hme hc.1
      simp [if_neg hcond]

theorem mem_slotLoop {d : Nat} (hd : 0 < d) (e m x : Nat) :
    x ∈ slotLoop e d m ↔ ∃ i, x = m + i * d ∧ x < e :=
  slotLoopGo_mem hd e (e - m) m x le_rfl

theorem pairwise_slotLoop {d : Nat} (hd : 0 < d) (e m : Nat) :
    (slotLoop e d m).Pairwise (· < ·) :=
  slotLoopGo_pairwise hd e (e - m) m le_rfl

/-! The claims. -/

/-- C8: `meetsAdvanceNotice dateTime now minHours` returns true exactly when
the booking instant is at or after `now` plus `minHours` hours, and the
boundary instant `now + minHours` itself counts as meeting the notice. -/
theorem meetsAdvanceNotice_iff (t now h : Nat) :
    (meetsAdvanceNotice t now h = true ↔ now + h * 60 ≤ t) ∧
    meetsAdvanceNotice (now + h * 60) now h = true :=
  ⟨by simp [meetsAdvanceNotice], by simp [meetsAdvanceNotice]⟩

/-- C9 counterexample: called with `startTime ≥ endTime` (here 17:00 and
09:00), `generateTimeSlots` does not fail — it returns the empty sequence. -/
theorem generateTimeSlots_reversed_counterexample :
    generateTimeSlots "17:00" "09:00" 60 = [] := by decide

/-- C9 (amended): with a positive duration the grid is exactly the
duration-spaced offsets from `startTime` lying strictly below `endTime`, in
strictly increasing order, rendered as `HH:mm` strings; when
`startTime ≥ endTime` the loop body never runs and the empty sequence is
returned without an error (and with duration ≤ 0 the source loop never
terminates, so no error is signalled there either). -/
theorem generateTimeSlots_characterization (s e d : Nat) (hd : 0 < d) :
    (∀ x, x ∈ slotLoop e d s ↔ ∃ i, x = s + i * d ∧ x < e) ∧
    (slotLoop e d s).Pairwise (· < ·) ∧
    (∀ st et : String, generateTimeSlots st et d =
      (slotLoop (timeToMinutes et) d (timeToMinutes st)).map minutesToTime) ∧
    (e ≤ s → slotLoop e d s = []) := by
  refine ⟨fun x => mem_slotLoop hd e s x, pairwise_slotLoop hd e s,
    fun _ _ => rfl, fun hse => ?_⟩
  unfold slotLoop
  rw [show e - s = 0 from by omega]
  rfl

theorem generateTimeSlots_characterization_witness :
    (600 ∈ slotLoop 1020 60 540 ↔ ∃ i, 600 = 540 + i * 60 ∧ 600 < 1020) :=
  (generateTimeSlots_characterization 540 1020 60 (by decide)).1 600

/-- C7 counterexample: with working hours 09:00-17:00, 60-minute slots, 3 hours
advance notice and `now` at 10:00 on 2024-02-15 (day 19768), the available
listing for that day is not the claimed `["14:00","15:00","16:00"]`: the source
filter keeps offsets at or after `now + 3h`, so 13:00 is included. -/
theorem availability_scenario_counterexample :
    getAvailableTimeSlotsForDate (.valid 19768) "09:00" "17:00" 60 3
      (19768 * 1440 + 600) ≠ .ok ["14:00", "15:00", "16:00"] := by decide

/-- C7 (amended): in the scenario the listing is exactly
`["13:00","14:00","15:00","16:00"]` — 13:00 equals `now + 3h` and the boundary
counts as meeting the advance notice, so it is kept. -/
theorem availability_scenario_amended :
    getAvailableTimeSlotsForDate (.valid 19768) "09:00" "17:00" 60 3
      (19768 * 1440 + 600) = .ok ["13:00", "14:00", "15:00", "16:00"] := by decide

/-- C3 (code bug record): two concurrent callers both run the
`getOrCreateDaySlots` emptiness read on a day with no slots, so both execute
`generateDaySlots`; the schema declares no unique index on
`(date, startTime, duration)`, hence neither bulk insert collides and the store
ends with two non-BLOCKED rows for the 09:00 offset of 2024-02-15 instead of
one. -/
theorem race_generation_duplicates :
    ((generateDaySlots (generateDaySlots [] 19768 60 defaultConfig) 19768 60
        defaultConfig).countP
      (fun s => s.date == 19768 && s.startTime == 540 && s.duration == 60 &&
        !(s.status == SlotStatus.blocked))) = 2 := by decide

/-- C2 counterexample: generate the 2024-02-15 grid, book slot 0 for U1 with
metadata, then cancel less than one hour before the start; the cancellation
rollback restores status BOOKED and the holder but not the metadata, leaving a
reachable BOOKED slot with no metadata — refuting "metadata is set iff status
is BOOKED". -/
theorem cancel_rollback_breaks_metadata_inv :
    ∃ s ∈ runOps defaultConfig
        [.generate 19768 60, .book 0 "U1" [("note", "x")] (19768 * 1440),
         .cancel 0 "U1" (19768 * 1440 + 540)],
      s.status = SlotStatus.booked ∧ s.metadata.isSome = false := by decide

/-- C2 (amended): over every sequence of generate, reserve, cancel, release and
reschedule operations in which reserve and cancel carry a requester id, every
slot of every reachable store is BOOKED exactly when its holder is set; the
metadata implication holds in one direction only — metadata present implies
BOOKED — since a cancellation rollback can leave a BOOKED slot without
metadata. -/
theorem holder_invariant_reachable (cfg : BookingConfig) (ops : List Op) :
    ∀ s ∈ runOps cfg ops,
      (s.status = SlotStatus.booked ↔ s.bookedBy.isSome = true) ∧
      (s.metadata.isSome = true → s.status = SlotStatus.booked) := by
  intro s hs
  exact holderInv_foldl ops [] (by simp) s hs

theorem holder_invariant_reachable_witness :
    (SlotStatus.booked = SlotStatus.booked ↔ (some "U1").isSome = true) ∧
    ((some [("note", "x")] : Option Metadata).isSome = true →
      SlotStatus.booked = SlotStatus.booked) := by
  have h := holder_invariant_reachable defaultConfig
    [.generate 19768 60, .book 0 "U1" [("note", "x")] (19768 * 1440)]
    { id := 0, date := 19768, startTime := 540, endTime := 600, duration := 60,
      status := SlotStatus.booked, bookedBy := some "U1",
      bookedAt := some (19768 * 1440), metadata := some [("note", "x")] }
    (by decide)
  exact h

/-- C10: `isSlotAvailable` is total — it returns a boolean for every pair of
boundary inputs, malformed ones included — and it returns `true` exactly when
every business-rule validation passes and an AVAILABLE slot exists at the
requested coordinates; whenever validation fails, or the guarded lookup throws,
it returns `false`. -/
theorem isSlotAvailable_spec (store : Store) (date : DateInput) (time : TimeStr)
    (cfg : BookingConfig) (now : Nat) :
    isSlotAvailable store date time cfg now = true ↔
      ((validateBookingDateTime date time cfg now).isEmpty = true ∧
       ∃ s ∈ store, slotAt date time s = true ∧ s.status = SlotStatus.available) := by
  by_cases hv : (validateBookingDateTime date time cfg now).isEmpty = true
  · cases date with
    | malformed =>
      simp [isSlotAvailable, findAvailableSlot, hv, slotAt]
    | valid d =>
      cases time with
      | malformed =>
        simp [isSlotAvailable, findAvailableSlot, hv, slotAt, TimeStr.toMinutes?]
      | hm hh mm =>
        rcases hf : store.find? (coordFilter d (60 * hh + mm)) with _ | s
        · have hnone := hf
          rw [List.find?_eq_none] at hnone
          refine iff_of_false (by simp [isSlotAvailable, findAvailableSlot, hv, TimeStr.toMinutes?, hf]) ?_
          rintro ⟨-, s, hs, hat, hst⟩
          refine hnone s hs ?_
          simp only [slotAt, TimeStr.toMinutes?, Bool.and_eq_true, beq_iff_eq] at hat
          simp [coordFilter, hat.1, hat.2, hst]
        · have hps := List.find?_some hf
          have hmem := List.mem_of_find?_eq_some hf
          simp only [coordFilter, Bool.and_eq_true, beq_iff_eq] at hps
          refine iff_of_true ?_ ⟨hv, s, hmem, ?_, hps.2⟩
          · simp [isSlotAvailable, findAvailableSlot, hv, TimeStr.toMinutes?, hf]
          · simp [slotAt, TimeStr.toMinutes?, hps.1.1, hps.1.2]
  · simp [isSlotAvailable, hv]

theorem bookFilter_id {slotId : Nat} : ∀ t, bookFilter slotId t = true → t.id = slotId := by
  intro t ht
  simp only [bookFilter, Bool.and_eq_true, beq_iff_eq] at ht
  exact ht.1

theorem releaseFilter_id {slotId : Nat} {uopt : Option String} :
    ∀ t, releaseFilter slotId uopt t = true → t.id = slotId := by
  intro t ht
  simp only [releaseFilter, Bool.and_eq_true, beq_iff_eq] at ht
  exact ht.1.1

theorem byId_id {slotId : Nat} : ∀ t, byId slotId t = true → t.id = slotId := by
  intro t ht
  simpa [byId] using ht

/-- C1: `bookSlot` reserves through a single conditional update that succeeds
only when the slot is currently AVAILABLE, setting status BOOKED, holder,
metadata and booked-at stamp together in that update; when the update misses,
an unknown id raises the not-found error while an existing non-AVAILABLE slot
raises the "no longer available" conflict, so the caller can distinguish the
two failures. -/
theorem bookSlot_reserve_semantics (store : Store) (slotId : Nat) (u : String)
    (md : Option Metadata) (adv now : Nat)
    (hids : (store.map Slot.id).Nodup) :
    (store.find? (byId slotId) = none →
      bookSlot store slotId (some u) md adv now =
        (store, .error (.notFound "Time slot not found"))) ∧
    (∀ s, store.find? (byId slotId) = some s → s.status ≠ SlotStatus.available →
      bookSlot store slotId (some u) md adv now =
        (store, .error (.conflict "Time slot is no longer available"))) ∧
    (∀ s, store.find? (byId slotId) = some s → s.status = SlotStatus.available →
      meetsAdvanceNotice (slotDateTime s) now adv = true →
      (bookSlot store slotId (some u) md adv now).2 =
        .ok (setBooked (some u) md now s) ∧
      (bookSlot store slotId (some u) md adv now).1.find? (byId slotId) =
        some (setBooked (some u) md now s) ∧
      (setBooked (some u) md now s).status = SlotStatus.booked ∧
      (setBooked (some u) md now s).bookedBy = some u ∧
      (setBooked (some u) md now s).bookedAt = some now ∧
      (setBooked (some u) md now s).metadata = some (md.getD [])) := by
  refine ⟨?_, ?_, ?_⟩
  · intro hnone
    have hbf : store.find? (bookFilter slotId) = none := by
      rw [List.find?_eq_none] at hnone ⊢
      intro t ht hc
      exact hnone t ht (by simp only [byId]; exact (by
        simp only [bookFilter, Bool.and_eq_true] at hc; exact hc.1))
    have hup := updateFirst_of_find?_eq_none (f := setBooked (some u) md now) hbf
    simp [bookSlot, hup, hnone]
  · intro s hfind hst
    have hps : bookFilter slotId s = false := by
      have h1 : (s.status == SlotStatus.available) = false := by
        simp [hst]
      simp [bookFilter, h1]
    have hbf := find?_eq_of_unique_id hids bookFilter_id hfind
    rw [hps] at hbf
    simp only [Bool.false_eq_true, if_false] at hbf
    have hup := updateFirst_of_find?_eq_none (f := setBooked (some u) md now) hbf
    simp [bookSlot, hup, hfind]
  · intro s hfind hst hmeets
    have hid : (s.id == slotId) = true := by simpa [byId] using List.find?_some hfind
    have hps : bookFilter slotId s = true := by simp [bookFilter, hid, hst]
    obtain ⟨hu1, hu2⟩ := updateFirst_find_spec bookFilter_id
      (f := setBooked (some u) md now) (fun t => rfl) hfind hps
    rcases hup : updateFirst (bookFilter slotId) (setBooked (some u) md now) store
      with ⟨o, store1⟩
    rw [hup] at hu1 hu2
    simp only at hu1
    subst hu1
    have hmeets2 : meetsAdvanceNotice (slotDateTime (setBooked (some u) md now s))
        now adv = true := by
      rw [slotDateTime_setBooked]; exact hmeets
    refine ⟨by simp [bookSlot, hup, hmeets2], ?_, rfl, rfl, rfl, rfl⟩
    have hgoal : store1.find? (byId slotId) = some (setBooked (some u) md now s) := by
      have := hu2 slotId
      simpa using this
    simpa [bookSlot, hup, hmeets2] using hgoal

theorem bookSlot_reserve_semantics_witness :
    (bookSlot [⟨1, 19768, 540, 600, 60, SlotStatus.available, none, none, none, none⟩] 1
        (some "U1") none 3 (19768 * 1440)).2 =
      .ok (setBooked (some "U1") none (19768 * 1440)
        ⟨1, 19768, 540, 600, 60, SlotStatus.available, none, none, none, none⟩) :=
  ((bookSlot_reserve_semantics
      [⟨1, 19768, 540, 600, 60, SlotStatus.available, none, none, none, none⟩] 1 "U1" none 3
      (19768 * 1440) (by decide)).2.2
    ⟨1, 19768, 540, 600, 60, SlotStatus.available, none, none, none, none⟩
    (by decide) rfl (by decide)).1

/-- C6: when the advance-notice double check fails right after a successful
reserve, `bookSlot` rolls the reservation back — the slot returns to AVAILABLE
with holder, metadata and booked-at stamp cleared, the store ends exactly in
its prior state — and a validation (bad-request) error is raised. -/
theorem bookSlot_advance_rollback (store : Store) (slotId : Nat)
    (uid : Option String) (md : Option Metadata) (adv now : Nat) (s : Slot)
    (hfind : store.find? (byId slotId) = some s)
    (hst : s.status = SlotStatus.available)
    (hb : s.bookedBy = none) (ha : s.bookedAt = none) (hm : s.metadata = none)
    (hmeets : meetsAdvanceNotice (slotDateTime s) now adv = false) :
    bookSlot store slotId uid md adv now =
      (store, .error (.badRequest "Bookings must be made in advance")) := by
  have hid : (s.id == slotId) = true := by simpa [byId] using List.find?_some hfind
  have hps : bookFilter slotId s = true := by simp [bookFilter, hid, hst]
  have hqf : byId slotId (setBooked uid md now s) = true := by simp [byId, setBooked]; simpa using hid
  have hgf : clearBooking (setBooked uid md now s) = s := by
    cases s
    simp_all [clearBooking, setBooked]
  have hrestore := updateFirst_restore bookFilter_id byId_id hfind hps hqf hgf
  obtain ⟨hu1, -⟩ := updateFirst_find_spec bookFilter_id
    (f := setBooked uid md now) (fun t => rfl) hfind hps
  rcases hup : updateFirst (bookFilter slotId) (setBooked uid md now) store with ⟨o, store1⟩
  rw [hup] at hu1 hrestore
  simp only at hu1
  subst hu1
  have hmeets2 : meetsAdvanceNotice (slotDateTime (setBooked uid md now s)) now adv = false := by
    rw [slotDateTime_setBooked]; exact hmeets
  simp [bookSlot, hup, hmeets2, hrestore]

theorem bookSlot_advance_rollback_witness :
    bookSlot [⟨1, 19768, 540, 600, 60, SlotStatus.available, none, none, none, none⟩] 1
      (some "U1") none 3 (19768 * 1440 + 500) =
      ([⟨1, 19768, 540, 600, 60, SlotStatus.available, none, none, none, none⟩],
       .error (.badRequest "Bookings must be made in advance")) :=
  bookSlot_advance_rollback
    [⟨1, 19768, 540, 600, 60, SlotStatus.available, none, none, none, none⟩] 1
    (some "U1") none 3 (19768 * 1440 + 500)
    ⟨1, 19768, 540, 600, 60, SlotStatus.available, none, none, none, none⟩
    (by decide) rfl rfl rfl rfl (by decide)

/-- C5: releasing a slot reserved by a holder restores status AVAILABLE with
the holder and the metadata cleared (round-trip law), and releasing an
already-AVAILABLE slot is an idempotent no-op success — the call returns the
slot and raises neither a not-found nor a conflict error. -/
theorem freeSlot_roundtrip_idempotent (store : Store) (slotId : Nat) (u : String)
    (md : Option Metadata) (adv now now2 : Nat)
    (hids : (store.map Slot.id).Nodup) :
    (∀ s uopt, store.find? (byId slotId) = some s → s.status = SlotStatus.available →
      freeSlot store slotId uopt now2 = (store, .ok s)) ∧
    (∀ s, store.find? (byId slotId) = some s → s.status = SlotStatus.available →
      meetsAdvanceNotice (slotDateTime s) now adv = true →
      (freeSlot (bookSlot store slotId (some u) md adv now).1 slotId (some u) now2).2 =
        .ok (setFreed now2 (setBooked (some u) md now s)) ∧
      (freeSlot (bookSlot store slotId (some u) md adv now).1 slotId (some u) now2).1.find?
        (byId slotId) = some (setFreed now2 (setBooked (some u) md now s)) ∧
      (setFreed now2 (setBooked (some u) md now s)).status = SlotStatus.available ∧
      (setFreed now2 (setBooked (some u) md now s)).bookedBy = none ∧
      (setFreed now2 (setBooked (some u) md now s)).metadata = none) := by
  constructor
  · intro s uopt hfind hst
    have hps : releaseFilter slotId uopt s = false := by
      have h1 : (s.status == SlotStatus.booked) = false := by simp [hst]
      simp [releaseFilter, h1]
    have hres := find?_eq_of_unique_id (p := releaseFilter slotId uopt) hids
      releaseFilter_id hfind
    rw [hps] at hres
    simp only [Bool.false_eq_true, if_false] at hres
    have hup := updateFirst_of_find?_eq_none (f := setFreed now2) hres
    have hsta : (s.status == SlotStatus.available) = true := by simp [hst]
    simp [freeSlot, hup, hfind, hsta]
  · intro s hfind hst hmeets
    have hid : (s.id == slotId) = true := by simpa [byId] using List.find?_some hfind
    have hps : bookFilter slotId s = true := by simp [bookFilter, hid, hst]
    obtain ⟨hu1, hu2⟩ := updateFirst_find_spec bookFilter_id
      (f := setBooked (some u) md now) (fun t => rfl) hfind hps
    rcases hup : updateFirst (bookFilter slotId) (setBooked (some u) md now) store
      with ⟨o, store1⟩
    rw [hup] at hu1 hu2
    simp only at hu1
    subst hu1
    have hmeets2 : meetsAdvanceNotice (slotDateTime (setBooked (some u) md now s))
        now adv = true := by
      rw [slotDateTime_setBooked]; exact hmeets
    have hb1 : (bookSlot store slotId (some u) md adv now).1 = store1 := by
      simp [bookSlot, hup, hmeets2]
    rw [hb1]
    have hf1 : store1.find? (byId slotId) = some (setBooked (some u) md now s) := by
      simpa using hu2 slotId
    have hpsf : releaseFilter slotId (some u) (setBooked (some u) md now s) = true := by
      simp [releaseFilter, setBooked]
      simpa using hid
    obtain ⟨hv1, hv2⟩ := updateFirst_find_spec releaseFilter_id
      (f := setFreed now2) (fun t => rfl) hf1 hpsf
    rcases hupf : updateFirst (releaseFilter slotId (some u)) (setFreed now2) store1
      with ⟨o2, store2⟩
    rw [hupf] at hv1 hv2
    simp only at hv1
    subst hv1
    refine ⟨by simp [freeSlot, hupf], ?_, rfl, rfl, rfl⟩
    have hgoal : store2.find? (byId slotId) =
        some (setFreed now2 (setBooked (some u) md now s)) := by
      simpa using hv2 slotId
    simpa [freeSlot, hupf] using hgoal

theorem freeSlot_roundtrip_idempotent_witness :
    (freeSlot (bookSlot
        [⟨1, 19768, 540, 600, 60, SlotStatus.available, none, none, none, none⟩] 1
        (some "U1") none 3 (19768 * 1440)).1 1 (some "U1") (19768 * 1440 + 10)).2 =
      .ok (setFreed (19768 * 1440 + 10) (setBooked (some "U1") none (19768 * 1440)
        ⟨1, 19768, 540, 600, 60, SlotStatus.available, none, none, none, none⟩)) :=
  ((freeSlot_roundtrip_idempotent
      [⟨1, 19768, 540, 600, 60, SlotStatus.available, none, none, none, none⟩] 1 "U1" none 3
      (19768 * 1440) (19768 * 1440 + 10) (by decide)).2
    ⟨1, 19768, 540, 600, 60, SlotStatus.available, none, none, none, none⟩
    (by decide) rfl (by decide)).1

theorem map_id_updateFirst {p : Slot → Bool} {f : Slot → Slot} {l : Store}
    (hfid : ∀ t, (f t).id = t.id) :
    ((updateFirst p f l).2.map Slot.id) = l.map Slot.id := by
  induction l with
  | nil => rfl
  | cons s rest ih =>
    by_cases hp : p s = true
    · simp [updateFirst, hp, hfid]
    · simp [updateFirst, hp, ih]

theorem findAvailableSlot_ok_some {store : Store} {nd : DateInput} {nt : TimeStr}
    {cfg : BookingConfig} {now : Nat} {B : Slot}
    (h : findAvailableSlot store nd nt cfg now = .ok (some B)) :
    ∃ d hh mm, nd = DateInput.valid d ∧ nt = TimeStr.hm hh mm ∧
      store.find? (coordFilter d (60 * hh + mm)) = some B := by
  unfold findAvailableSlot at h
  by_cases hv : (validateBookingDateTime nd nt cfg now).isEmpty = true
  · rw [if_pos hv] at h
    cases nd with
    | malformed => simp at h
    | valid d =>
      cases nt with
      | malformed => simp [TimeStr.toMinutes?] at h
      | hm hh mm =>
        simp only [TimeStr.toMinutes?] at h
        exact ⟨d, hh, mm, rfl, rfl, by injection h⟩
  · rw [if_neg hv] at h
    simp at h

/-- C4: `rescheduleSlot` looks up the new-coordinate slot first and fails fast,
leaving the store untouched, when it is unavailable; on success the old slot
ends AVAILABLE with holder and metadata cleared while the new slot ends BOOKED
with the same holder and the same metadata; and when the new slot's
reservation fails after the lookup (a racing caller took it), the old slot
still ends AVAILABLE and the new slot's document is unchanged. -/
theorem rescheduleSlot_correct (store : Store) (curId : Nat) (nd : DateInput)
    (nt : TimeStr) (u : String) (cfg : BookingConfig) (now : Nat)
    (hids : (store.map Slot.id).Nodup) :
    (findAvailableSlot store nd nt cfg now = .ok none →
      rescheduleSlot store curId nd nt (some u) cfg now =
        (store, .error (.badRequest "New time slot is not available"))) ∧
    (∀ e, findAvailableSlot store nd nt cfg now = .error e →
      rescheduleSlot store curId nd nt (some u) cfg now = (store, .error e)) ∧
    (∀ A B mA, store.find? (byId curId) = some A →
      findAvailableSlot store nd nt cfg now = .ok (some B) →
      A.status = SlotStatus.booked → A.bookedBy = some u → A.metadata = some mA →
      meetsAdvanceNotice (slotDateTime B) now cfg.advanceHours = true →
      ∃ final : Store,
        rescheduleSlot store curId nd nt (some u) cfg now =
          (final, .ok (setFreed now A, setBooked (some u) (some mA) now B)) ∧
        final.find? (byId curId) = some (setFreed now A) ∧
        final.find? (byId B.id) = some (setBooked (some u) (some mA) now B) ∧
        (setFreed now A).status = SlotStatus.available ∧
        (setFreed now A).bookedBy = none ∧
        (setFreed now A).metadata = none ∧
        (setBooked (some u) (some mA) now B).status = SlotStatus.booked ∧
        (setBooked (some u) (some mA) now B).bookedBy = some u ∧
        (setBooked (some u) (some mA) now B).metadata = some mA) ∧
    (∀ A B md, store.find? (byId curId) = some A →
      store.find? (byId B.id) = some B → B.id ≠ curId →
      A.status = SlotStatus.booked → A.bookedBy = some u →
      B.status ≠ SlotStatus.available →
      (reschedulePhase2 store curId B.id (some u) md cfg.advanceHours now).2 =
        .error (.conflict "Time slot is no longer available") ∧
      (reschedulePhase2 store curId B.id (some u) md cfg.advanceHours now).1.find?
        (byId curId) = some (setFreed now A) ∧
      (reschedulePhase2 store curId B.id (some u) md cfg.advanceHours now).1.find?
        (byId B.id) = some B) := by
  refine ⟨?_, ?_, ?_, ?_⟩
  · intro hfa
    simp [rescheduleSlot, hfa]
  · intro e hfa
    simp [rescheduleSlot, hfa]
  · intro A B mA hfindA hfa hstA hbA hmA hmeets
    obtain ⟨d, hh, mm, rfl, rfl, hcoord⟩ := findAvailableSlot_ok_some hfa
    have hpsB := List.find?_some hcoord
    simp only [coordFilter, Bool.and_eq_true, beq_iff_eq] at hpsB
    have hmemB := List.mem_of_find?_eq_some hcoord
    have hfB : store.find? (byId B.id) = some B := find?_byId_of_mem hids hmemB
    have hAid : (A.id == curId) = true := by simpa [byId] using List.find?_some hfindA
    have hBne : ¬ B.id = curId := by
      intro hBq
      rw [hBq, hfindA] at hfB
      injection hfB with hAB
      rw [← hAB] at hpsB
      rw [hstA] at hpsB
      exact absurd hpsB.2 (by simp)
    have hpsA : releaseFilter curId (some u) A = true := by
      simp [releaseFilter, hAid, hstA, hbA]
    obtain ⟨hu1, hu2⟩ := updateFirst_find_spec releaseFilter_id
      (f := setFreed now) (fun t => rfl) hfindA hpsA
    rcases hupf : updateFirst (releaseFilter curId (some u)) (setFreed now) store
      with ⟨o1, store1⟩
    rw [hupf] at hu1 hu2
    simp only at hu1
    subst hu1
    have hfree : freeSlot store curId (some u) now = (store1, .ok (setFreed now A)) := by
      simp [freeSlot, hupf]
    have hfB1 : store1.find? (byId B.id) = some B := by
      have h2 := hu2 B.id
      rw [if_neg hBne] at h2
      rw [h2, hfB]
    have hpsB2 : bookFilter B.id B = true := by simp [bookFilter, hpsB.2]
    obtain ⟨hw1, hw2⟩ := updateFirst_find_spec bookFilter_id
      (f := setBooked (some u) (some mA) now) (fun t => rfl) hfB1 hpsB2
    rcases hupb : updateFirst (bookFilter B.id) (setBooked (some u) (some mA) now) store1
      with ⟨o2, store2⟩
    rw [hupb] at hw1 hw2
    simp only at hw1
    subst hw1
    have hmeets2 : meetsAdvanceNotice (slotDateTime (setBooked (some u) (some mA) now B))
        now cfg.advanceHours = true := by
      rw [slotDateTime_setBooked]; exact hmeets
    have hbook : bookSlot store1 B.id (some u) (some mA) cfg.advanceHours now =
        (store2, .ok (setBooked (some u) (some mA) now B)) := by
      simp [bookSlot, hupb, hmeets2]
    refine ⟨store2, ?_, ?_, ?_, rfl, rfl, rfl, rfl, rfl, rfl⟩
    · simp [rescheduleSlot, hfa, hfindA, hbA, hmA, reschedulePhase2, hfree, hbook]
    · have h1 : store2.find? (byId curId) = store1.find? (byId curId) := by
        have h2 := hw2 curId
        rw [if_neg (fun hq => hBne hq.symm)] at h2
        exact h2
      rw [h1]
      simpa using hu2 curId
    · simpa using hw2 B.id
  · intro A B md hfindA hfB hBne hstA hbA hstB
    have hAid : (A.id == curId) = true := by simpa [byId] using List.find?_some hfindA
    have hpsA : releaseFilter curId (some u) A = true := by
      simp [releaseFilter, hAid, hstA, hbA]
    obtain ⟨hu1, hu2⟩ := updateFirst_find_spec releaseFilter_id
      (f := setFreed now) (fun t => rfl) hfindA hpsA
    rcases hupf : updateFirst (releaseFilter curId (some u)) (setFreed now) store
      with ⟨o1, store1⟩
    rw [hupf] at hu1 hu2
    simp only at hu1
    subst hu1
    have hfree : freeSlot store curId (some u) now = (store1, .ok (setFreed now A)) := by
      simp [freeSlot, hupf]
    have hfB1 : store1.find? (byId B.id) = some B := by
      have h2 := hu2 B.id
      rw [if_neg hBne] at h2
      rw [h2, hfB]
    have hids1 : (store1.map Slot.id).Nodup := by
      have := map_id_updateFirst (p := releaseFilter curId (some u))
        (f := setFreed now) (l := store) (fun t => rfl)
      rw [hupf] at this
      simpa [this] using hids
    have hpsB : bookFilter B.id B = false := by
      have h1 : (B.status == SlotStatus.available) = false := by simp [hstB]
      simp [bookFilter, h1]
    have hres := find?_eq_of_unique_id (p := bookFilter B.id) hids1 bookFilter_id hfB1
    rw [hpsB] at hres
    simp only [Bool.false_eq_true, if_false] at hres
    have hupn := updateFirst_of_find?_eq_none
      (f := setBooked (some u) md now) hres
    have hbook : bookSlot store1 B.id (some u) md cfg.advanceHours now =
        (store1, .error (.conflict "Time slot is no longer available")) := by
      simp [bookSlot, hupn, hfB1]
    refine ⟨?_, ?_, ?_⟩
    · simp [reschedulePhase2, hfree, hbook]
    · have h1 : (reschedulePhase2 store curId B.id (some u) md cfg.advanceHours now).1 =
          store1 := by
        simp [reschedulePhase2, hfree, hbook]
      rw [h1]
      simpa using hu2 curId
    · have h1 : (reschedulePhase2 store curId B.id (some u) md cfg.advanceHours now).1 =
          store1 := by
        simp [reschedulePhase2, hfree, hbook]
      rw [h1]
      exact hfB1

theorem rescheduleSlot_correct_witness :
    ∃ final : Store,
      rescheduleSlot
        [⟨1, 19768, 540, 600, 60, SlotStatus.booked, some "U1", some 0,
          some [("note", "x")], none⟩,
         ⟨2, 19768, 600, 660, 60, SlotStatus.available, none, none, none, none⟩] 1
        (.valid 19768) (.hm 10 0) (some "U1") defaultConfig (19768 * 1440) =
        (final, .ok (setFreed (19768 * 1440)
            ⟨1, 19768, 540, 600, 60, SlotStatus.booked, some "U1", some 0,
              some [("note", "x")], none⟩,
          setBooked (some "U1") (some [("note", "x")]) (19768 * 1440)
            ⟨2, 19768, 600, 660, 60, SlotStatus.available, none, none, none, none⟩)) ∧
      final.find? (byId 1) = some (setFreed (19768 * 1440)
        ⟨1, 19768, 540, 600, 60, SlotStatus.booked, some "U1", some 0,
          some [("note", "x")], none⟩) ∧
      final.find? (byId 2) = some (setBooked (some "U1") (some [("note", "x")])
        (19768 * 1440)
        ⟨2, 19768, 600, 660, 60, SlotStatus.available, none, none, none, none⟩) ∧
      (setFreed (19768 * 1440)
        ⟨1, 19768, 540, 600, 60, SlotStatus.booked, some "U1", some 0,
          some [("note", "x")], none⟩).status = SlotStatus.available ∧
      (setFreed (19768 * 1440)
        ⟨1, 19768, 540, 600, 60, SlotStatus.booked, some "U1", some 0,
          some [("note", "x")], none⟩).bookedBy = none ∧
      (setFreed (19768 * 1440)
        ⟨1, 19768, 540, 600, 60, SlotStatus.booked, some "U1", some 0,
          some [("note", "x")], none⟩).metadata = none ∧
      (setBooked (some "U1") (some [("note", "x")]) (19768 * 1440)
        ⟨2, 19768, 600, 660, 60, SlotStatus.available, none, none, none,
          none⟩).status = SlotStatus.booked ∧
      (setBooked (some "U1") (some [("note", "x")]) (19768 * 1440)
        ⟨2, 19768, 600, 660, 60, SlotStatus.available, none, none, none,
          none⟩).bookedBy = some "U1" ∧
      (setBooked (some "U1") (some [("note", "x")]) (19768 * 1440)
        ⟨2, 19768, 600, 660, 60, SlotStatus.available, none, none, none,
          none⟩).metadata = some [("note", "x")] :=
  (rescheduleSlot_correct
    [⟨1, 19768, 540, 600, 60, SlotStatus.booked, some "U1", some 0,
      some [("note", "x")], none⟩,
     ⟨2, 19768, 600, 660, 60, SlotStatus.available, none, none, none, none⟩] 1
    (.valid 19768) (.hm 10 0) "U1" defaultConfig (19768 * 1440) (by decide)).2.2.1
    ⟨1, 19768, 540, 600, 60, SlotStatus.booked, some "U1", some 0,
      some [("note", "x")], none⟩
    ⟨2, 19768, 600, 660, 60, SlotStatus.available, none, none, none, none⟩
    [("note", "x")] (by decide) (by decide) rfl rfl rfl (by decide)

end Booking
